import Mathlib

/-!
Verification of the Maud schema-migration scripts.

The Python sources are shallowly embedded here:

* `src/data_model.py` — the new-schema pydantic records and their validators;
  fallible constructors are embedded as `Except`-returning functions.
* `src/update_maud/update_model_toml.py` — the package model migration
  (`updateModel` below).
* `src/update_maud.py` — the legacy top-level model migration
  (`updateModelLegacy` below).
* `src/update_maud/update_priors.py` — the newer-shape priors migration
  (`updatePriorsNew` below).
* `src/update_maud/main.py` — the measurements migration
  (`updateMeasurements` below).

Python strings are `String`, floats are `Rat` (only equality and pass-through
are ever used), dicts are association lists with Python insertion semantics,
NaN cells are `Option.none`, and every exception class is a constructor of
`PyError`.
-/

namespace Maud

/-- Exception classes raised by the scripts. -/
inductive PyError where
  | validationError
  | stopIteration
  | notImplementedError
  | attributeError
deriving DecidableEq, Repr

/-- Equality of `Except` results is decidable; this lets concrete runs of the
embedded scripts be checked by evaluation. -/
instance {ε α : Type _} [DecidableEq ε] [DecidableEq α] : DecidableEq (Except ε α) :=
  fun a b =>
    match a, b with
    | .error e₁, .error e₂ =>
      match decEq e₁ e₂ with
      | isTrue h => isTrue (by rw [h])
      | isFalse h => isFalse (fun hh => by cases hh; exact h rfl)
    | .error _, .ok _ => isFalse (fun hh => by cases hh)
    | .ok _, .error _ => isFalse (fun hh => by cases hh)
    | .ok a₁, .ok a₂ =>
      match decEq a₁ a₂ with
      | isTrue h => isTrue (by rw [h])
      | isFalse h => isFalse (fun hh => by cases hh; exact h rfl)

/-! ## String helpers used by the scripts -/

/-- `ID_SEPARATOR in v` for `ID_SEPARATOR = "_"`: the Python substring test of
a single-character pattern holds iff some character equals the separator. -/
def containsSep (s : String) : Bool := s.data.any (fun c => c == '_')

/-- `s.replace("_", "")`: remove every separator character. -/
def stripSeps (s : String) : String := ⟨s.data.filter (fun c => c != '_')⟩

/-- Python `str.replace(pat, rep)` on char lists: leftmost, non-overlapping,
replace all occurrences.  Recursion is on a fuel bound; every step consumes at
least one character of the list, so `fuel = length` never runs out.  All
patterns used by the scripts are non-empty. -/
def replaceFuel (pat rep : List Char) : Nat → List Char → List Char
  | _, [] => []
  | 0, rest => rest
  | fuel + 1, c :: rest =>
    if pat ≠ [] ∧ pat.isPrefixOf (c :: rest) then
      rep ++ replaceFuel pat rep fuel (List.drop (pat.length - 1) rest)
    else
      c :: replaceFuel pat rep fuel rest

/-- Python `s.replace(pat, rep)`. -/
def pyReplace (s pat rep : String) : String :=
  ⟨replaceFuel pat.data rep.data s.data.length s.data⟩

/-- Python `s.startswith(pre)`. -/
def pyStartsWith (s pre : String) : Bool := pre.data.isPrefixOf s.data

/-- Python `s[:-2]`: drop the last two characters (empty when `|s| ≤ 2`). -/
def dropLast2 (s : String) : String := ⟨s.data.take (s.data.length - 2)⟩

/-- `UNDER_PAT = re.compile(r"_(?![a-z]$)")`, applied as `UNDER_PAT.sub("", k)`:
a `'_'` survives only when it is followed by exactly one ASCII lowercase
letter at the end of the string. -/
def underPatKeeps (rest : List Char) : Bool :=
  match rest with
  | [c] => 'a' ≤ c && c ≤ 'z'
  | _ => false

/-- `UNDER_PAT.sub("", k)` on char lists. -/
def underPatSubList : List Char → List Char
  | [] => []
  | c :: rest =>
    if c = '_' && !underPatKeeps rest then underPatSubList rest
    else c :: underPatSubList rest

/-- `UNDER_PAT.sub("", k)`. -/
def underPatSub (s : String) : String := ⟨underPatSubList s.data⟩

/-- `COMP_PAT = re.compile(r"(.*)_([a-z]$)")` matches a string iff its
second-to-last character is `'_'` and its last character is ASCII lowercase. -/
def compPatMatches (s : String) : Bool :=
  match s.data.reverse with
  | c :: '_' :: _ => 'a' ≤ c && c ≤ 'z'
  | _ => false

/-- `COMP_PAT.sub(r"\2", s)`: the trailing compartment letter when the pattern
matches, the whole string unchanged otherwise (re.sub with no match). -/
def compPatSuffix (s : String) : String :=
  match s.data.reverse with
  | c :: '_' :: _ => if 'a' ≤ c && c ≤ 'z' then ⟨[c]⟩ else s
  | _ => s

/-- `COMP_PAT.sub(r"\1", s)`: everything before the trailing `_x` suffix when
the pattern matches, the whole string unchanged otherwise. -/
def compPatStem (s : String) : String :=
  match s.data.reverse with
  | c :: '_' :: rest => if 'a' ≤ c && c ≤ 'z' then ⟨rest.reverse⟩ else s
  | _ => s

/-! ## Python dict semantics

Reaction stoichiometries are Python dicts built by a comprehension; a repeated
key keeps its first position and takes the last value. -/

/-- One Python dict assignment `d[k] = v`. -/
def pyDictInsert (d : List (String × Rat)) (kv : String × Rat) : List (String × Rat) :=
  if d.any (fun e => e.1 == kv.1) then
    d.map (fun e => if e.1 == kv.1 then (e.1, kv.2) else e)
  else
    d ++ [kv]

/-- The dict built by a comprehension over `l` in order. -/
def pyDictOfList (l : List (String × Rat)) : List (String × Rat) :=
  l.foldl pyDictInsert []

/-! ## `src/data_model.py`: new-schema records and validators -/

/-- `ReactionMechanism` enum. -/
inductive ReactionMechanism where
  | reversibleMichaelisMenten
  | irreversibleMichaelisMenten
  | drain
deriving DecidableEq, Repr

/-- `ModificationType` enum. -/
inductive ModificationType where
  | activation
  | inhibition
deriving DecidableEq, Repr

structure Metabolite where
  id : String
  name : Option String
  inchi_key : Option String
deriving DecidableEq, Repr

structure Enzyme where
  id : String
  name : Option String
  subunits : Int
deriving DecidableEq, Repr

/-- The `Compartment` class shared by the old and new schema (no validator in
the migration scripts' local class). -/
structure Compartment where
  id : String
  name : String
  volume : Rat
deriving DecidableEq, Repr

structure Reaction where
  id : String
  name : Option String
  mechanism : ReactionMechanism
  stoichiometry : List (String × Rat)
  water_stoichiometry : Rat
  transported_charge : Rat
deriving DecidableEq, Repr

structure MetaboliteInCompartment where
  metabolite_id : String
  compartment_id : String
  balanced : Bool
deriving DecidableEq, Repr

structure EnzymeReaction where
  enzyme_id : String
  reaction_id : String
deriving DecidableEq, Repr

structure Allostery where
  enzyme_id : String
  metabolite_id : String
  compartment_id : String
  modification_type : ModificationType
deriving DecidableEq, Repr

structure CompetitiveInhibition where
  enzyme_id : String
  reaction_id : String
  metabolite_id : String
  compartment_id : String
deriving DecidableEq, Repr

/-- `Metabolite` construction: the `id` validator asserts
`ID_SEPARATOR not in v`. -/
def mkMetabolite (id : String) (name inchi_key : Option String) :
    Except PyError Metabolite :=
  if containsSep id then .error .validationError
  else .ok ⟨id, name, inchi_key⟩

/-- `Enzyme` construction: `id` must not contain the separator and
`subunits` must be positive. -/
def mkEnzyme (id : String) (name : Option String) (subunits : Int) :
    Except PyError Enzyme :=
  if containsSep id then .error .validationError
  else if subunits ≤ 0 then .error .validationError
  else .ok ⟨id, name, subunits⟩

/-- The body of `Reaction.stoichiometry_must_be_non_zero` is `assert v != 0`
where `v` is the whole stoichiometry dict; in Python a dict never equals the
int `0`, so the assertion holds for every dict, zero coefficients included. -/
def stoichDictNeIntZero (_v : List (String × Rat)) : Bool := true

/-- `Reaction` construction: the `id` validator asserts no separator, and the
stoichiometry validator asserts `v != 0` on the whole dict. -/
def mkReaction (id : String) (name : Option String) (mechanism : ReactionMechanism)
    (stoichiometry : List (String × Rat)) (water_stoichiometry transported_charge : Rat) :
    Except PyError Reaction :=
  if containsSep id then .error .validationError
  else if !stoichDictNeIntZero stoichiometry then .error .validationError
  else .ok ⟨id, name, mechanism, stoichiometry, water_stoichiometry, transported_charge⟩

/-- In `src/update_maud.py` the allostery record is constructed as
`md.Allostery(enzyme_id=…, metabolite_id=…, compartment="c", …)`: the keyword
`compartment` is not a field of `Allostery`, so the required `compartment_id`
field is missing and pydantic raises a `ValidationError`. -/
def mkAllosteryLegacy (_enzyme_id _metabolite_id _compartment : String)
    (_modification_type : ModificationType) : Except PyError Allostery :=
  .error .validationError

/-! ## Old-schema records (`ModelPrev` and friends)

The two migration scripts declare the same old-schema shapes (the only
differences are the name of the mechanism field, `mechanism` vs
`reaction_mechanism`, and of the inchi-key field; both are plain string
fields with the same role, so one embedding serves both). -/

structure ModifierPrev where
  modifier_type : String
  mic_id : String
deriving DecidableEq, Repr

structure EnzymePrev where
  id : String
  name : String
  subunits : Int
  modifier : Option (List ModifierPrev)
deriving DecidableEq, Repr

structure ReactionPrev where
  id : String
  name : String
  mechanism : String
  stoichiometry : List (String × Rat)
  enzyme : List EnzymePrev
  water_stoichiometry : Rat
  transported_charge : Rat
deriving DecidableEq, Repr

structure MetabolitePrev where
  id : String
  compartment : String
  balanced : Bool
  name : Option String
  metabolite_inchi_key : Option String
deriving DecidableEq, Repr

structure DrainPrev where
  id : String
  name : String
  stoichiometry : List (String × Rat)
deriving DecidableEq, Repr

structure ModelPrev where
  compartment : List Compartment
  reaction : List ReactionPrev
  metabolite : List MetabolitePrev
  drain : Option (List DrainPrev)
deriving DecidableEq, Repr

structure ModelNew where
  compartment : List Compartment
  reaction : List Reaction
  enzyme : List Enzyme
  enzyme_reaction : List EnzymeReaction
  metabolite : List Metabolite
  metabolite_in_compartment : List MetaboliteInCompartment
  allostery : List Allostery
  competitive_inhibition : List CompetitiveInhibition
deriving DecidableEq, Repr

/-! ## Error-propagating folds

`foldE` and `mapE` are structural embeddings of a Python `for` loop whose
body can raise, and of a pandas `.apply` whose lambda can raise: iteration is
in list order and the first exception aborts the whole call. -/

def foldE (f : σ → α → Except PyError σ) (init : σ) : List α → Except PyError σ
  | [] => .ok init
  | a :: as =>
    match f init a with
    | .error e => .error e
    | .ok s => foldE f s as

def mapE (f : α → Except PyError β) : List α → Except PyError (List β)
  | [] => .ok []
  | a :: as =>
    match f a with
    | .error e => .error e
    | .ok b =>
      match mapE f as with
      | .error e => .error e
      | .ok bs => .ok (b :: bs)

/-! ## `src/update_maud/update_model_toml.py`: `update_model` -/

/-- The five output lists accumulated by `update_model`'s reaction loop. -/
structure MigAcc where
  reactions : List Reaction
  enzymes : List Enzyme
  enzyme_reactions : List EnzymeReaction
  allosteries : List Allostery
  comp_inhibitions : List CompetitiveInhibition
deriving DecidableEq, Repr

/-- Derived metabolite id of a modifier: `modifier.mic_id[:-2].replace("_", "")`. -/
def micToMet (mic_id : String) : String := stripSeps (dropLast2 mic_id)

/-- Mechanism derivation: `reversible*` prefixes map to reversible
Michaelis-Menten, everything else to irreversible. -/
def mechanismOf (mech : String) : ReactionMechanism :=
  if pyStartsWith mech "reversible" then .reversibleMichaelisMenten
  else .irreversibleMichaelisMenten

/-- The rewritten stoichiometry dict
`{UNDER_PAT.sub("", k): v for k, v in reac.stoichiometry.items()}`. -/
def newStoich (st : List (String × Rat)) : List (String × Rat) :=
  pyDictOfList (st.map (fun kv => (underPatSub kv.1, kv.2)))

/-- Body of the modifier loop in `update_model_toml.py`. -/
def stepModifier (enz_id reac_id : String) (acc : MigAcc) (m : ModifierPrev) : MigAcc :=
  if m.modifier_type == "competitive_inhibitor" then
    { acc with comp_inhibitions :=
        acc.comp_inhibitions ++ [⟨enz_id, reac_id, micToMet m.mic_id, "c"⟩] }
  else
    let mod_type : ModificationType :=
      if m.modifier_type == "allosteric_inhibitor" then .inhibition else .activation
    { acc with allosteries :=
        acc.allosteries ++ [⟨enz_id, micToMet m.mic_id, "c", mod_type⟩] }

/-- Body of the enzyme loop in `update_model_toml.py`. -/
def stepEnzyme (reac_id : String) (acc : MigAcc) (enz : EnzymePrev) :
    Except PyError MigAcc :=
  match mkEnzyme (stripSeps enz.id) (some enz.name) enz.subunits with
  | .error err => .error err
  | .ok e =>
    match enz.modifier with
    | none =>
      .ok { acc with
        enzymes := acc.enzymes ++ [e],
        enzyme_reactions := acc.enzyme_reactions ++ [⟨stripSeps enz.id, reac_id⟩] }
    | some mods =>
      .ok (mods.foldl (stepModifier (stripSeps enz.id) reac_id)
        { acc with
          enzymes := acc.enzymes ++ [e],
          enzyme_reactions := acc.enzyme_reactions ++ [⟨stripSeps enz.id, reac_id⟩] })

/-- Body of the reaction loop in `update_model_toml.py`. -/
def stepReaction (acc : MigAcc) (reac : ReactionPrev) : Except PyError MigAcc :=
  match mkReaction (stripSeps reac.id) (some reac.name) (mechanismOf reac.mechanism)
      (newStoich reac.stoichiometry) reac.water_stoichiometry reac.transported_charge with
  | .error err => .error err
  | .ok r =>
    foldE (stepEnzyme (stripSeps reac.id)) { acc with reactions := acc.reactions ++ [r] }
      reac.enzyme

/-- Body of the metabolite loop in `update_model_toml.py`: deduplicate on the
stripped id against the already-emitted `Metabolite` records, always emit the
compartment record. -/
def stepMetabolite (acc : List Metabolite × List MetaboliteInCompartment)
    (met : MetabolitePrev) :
    Except PyError (List Metabolite × List MetaboliteInCompartment) :=
  if acc.1.any (fun mm => stripSeps met.id == mm.id) then
    .ok (acc.1, acc.2 ++ [⟨stripSeps met.id, met.compartment, met.balanced⟩])
  else
    match mkMetabolite (stripSeps met.id) met.name met.metabolite_inchi_key with
    | .error err => .error err
    | .ok m =>
      .ok (acc.1 ++ [m], acc.2 ++ [⟨stripSeps met.id, met.compartment, met.balanced⟩])

/-- `update_model` from `src/update_maud/update_model_toml.py`. -/
def updateModel (old : ModelPrev) : Except PyError ModelNew :=
  match foldE stepReaction ⟨[], [], [], [], []⟩ old.reaction with
  | .error err => .error err
  | .ok acc =>
    match foldE stepMetabolite ([], []) old.metabolite with
    | .error err => .error err
    | .ok mets =>
      .ok ⟨old.compartment, acc.reactions, acc.enzymes, acc.enzyme_reactions,
        mets.1, mets.2, acc.allosteries, acc.comp_inhibitions⟩

/-! ## `src/update_maud.py`: the legacy `update_model`

Differences from the package variant: the stoichiometry dict is passed to
`md.Reaction` unchanged, the competitive-inhibition metabolite id is the raw
`mic_id`, the allostery record is constructed with the wrong keyword
(`compartment`) and so raises, and the metabolite loop emits one `Metabolite`
record per entry with no deduplication. -/

def stepModifierLegacy (enz_id reac_id : String) (acc : MigAcc) (m : ModifierPrev) :
    Except PyError MigAcc :=
  if m.modifier_type == "competitive_inhibitor" then
    .ok { acc with comp_inhibitions :=
        acc.comp_inhibitions ++ [⟨enz_id, reac_id, m.mic_id, "c"⟩] }
  else
    match mkAllosteryLegacy enz_id m.mic_id "c"
        (if m.modifier_type == "allosteric_inhibitor" then .inhibition else .activation) with
    | .error err => .error err
    | .ok a => .ok { acc with allosteries := acc.allosteries ++ [a] }

def stepEnzymeLegacy (reac_id : String) (acc : MigAcc) (enz : EnzymePrev) :
    Except PyError MigAcc :=
  match mkEnzyme (stripSeps enz.id) (some enz.name) enz.subunits with
  | .error err => .error err
  | .ok e =>
    match enz.modifier with
    | none =>
      .ok { acc with
        enzymes := acc.enzymes ++ [e],
        enzyme_reactions := acc.enzyme_reactions ++ [⟨stripSeps enz.id, reac_id⟩] }
    | some mods =>
      foldE (stepModifierLegacy (stripSeps enz.id) reac_id)
        { acc with
          enzymes := acc.enzymes ++ [e],
          enzyme_reactions := acc.enzyme_reactions ++ [⟨stripSeps enz.id, reac_id⟩] }
        mods

def stepReactionLegacy (acc : MigAcc) (reac : ReactionPrev) : Except PyError MigAcc :=
  match mkReaction (stripSeps reac.id) (some reac.name) (mechanismOf reac.mechanism)
      reac.stoichiometry reac.water_stoichiometry reac.transported_charge with
  | .error err => .error err
  | .ok r =>
    foldE (stepEnzymeLegacy (stripSeps reac.id)) { acc with reactions := acc.reactions ++ [r] }
      reac.enzyme

def stepMetaboliteLegacy (acc : List Metabolite × List MetaboliteInCompartment)
    (met : MetabolitePrev) :
    Except PyError (List Metabolite × List MetaboliteInCompartment) :=
  match mkMetabolite (stripSeps met.id) met.name met.metabolite_inchi_key with
  | .error err => .error err
  | .ok m =>
    .ok (acc.1 ++ [m], acc.2 ++ [⟨stripSeps met.id, met.compartment, met.balanced⟩])

/-- The legacy `update_model` from `src/update_maud.py`. -/
def updateModelLegacy (old : ModelPrev) : Except PyError ModelNew :=
  match foldE stepReactionLegacy ⟨[], [], [], [], []⟩ old.reaction with
  | .error err => .error err
  | .ok acc =>
    match foldE stepMetaboliteLegacy ([], []) old.metabolite with
    | .error err => .error err
    | .ok mets =>
      .ok ⟨old.compartment, acc.reactions, acc.enzymes, acc.enzyme_reactions,
        mets.1, mets.2, acc.allosteries, acc.comp_inhibitions⟩

/-! ## `src/update_maud/update_priors.py`: the newer-shape priors migration

A priors table is a list of rows; a missing (NaN) cell is `none`.  The old
columns are `parameter_type, mic_id, enzyme_id, experiment_id, drain_id,
location, scale, pct1, pct99`; the target columns (`NEW_PRIOR_COLS`) are
`parameter, metabolite, compartment, enzyme, reaction, experiment, location,
scale, pct1, pct99`. -/

structure PriorsRowOld where
  parameter_type : String
  mic_id : Option String
  enzyme_id : Option String
  experiment_id : Option String
  drain_id : Option String
  location : Option String
  scale : Option String
  pct1 : Option String
  pct99 : Option String
deriving DecidableEq, Repr

structure PriorRow where
  parameter : String
  metabolite : Option String
  compartment : Option String
  enzyme : Option String
  reaction : Option String
  experiment : Option String
  location : Option String
  scale : Option String
  pct1 : Option String
  pct99 : Option String
deriving DecidableEq, Repr

/-- The per-row effect of the column operations preceding the validity filter:
the `df.rename` map (`parameter_type → parameter`, `mic_id → metabolite`,
`enzyme_id → enzyme`, `experiment_id → experiment`, `drain_id → reaction`),
the `COMP_PAT` compartment split of non-NaN metabolites, the separator
stripping of the enzyme, experiment and metabolite columns, and the
`diss_t → dissociation_constant` and `conc_phos → conc_pme` parameter
renames. -/
def transformRow (r : PriorsRowOld) : PriorRow :=
  { parameter :=
      pyReplace (pyReplace r.parameter_type "diss_t" "dissociation_constant")
        "conc_phos" "conc_pme",
    metabolite := (r.mic_id.map compPatStem).map stripSeps,
    compartment := r.mic_id.map compPatSuffix,
    enzyme := r.enzyme_id.map stripSeps,
    reaction := r.drain_id,
    experiment := r.experiment_id.map stripSeps,
    location := r.location,
    scale := r.scale,
    pct1 := r.pct1,
    pct99 := r.pct99 }

/-- `is_valid_enzyme`: a NaN id is not a string, hence invalid; otherwise the
generator `any(enz_reac.reaction_id for … if enz_reac.enzyme_id == enz_id)`
needs a join record with the stripped enzyme id and a truthy (non-empty)
reaction id. -/
def isValidEnzyme (enzyme_id : Option String) (model : ModelNew) : Bool :=
  match enzyme_id with
  | none => false
  | some e =>
    let enz_id := stripSeps e
    model.enzyme_reaction.any (fun er => er.enzyme_id == enz_id && er.reaction_id != "")

/-- `query_lookup` with its default arguments: the first `enzyme_reaction`
record whose `enzyme_id` equals the stripped query id yields its
`reaction_id`; `next` on an exhausted generator raises `StopIteration`. -/
def queryLookup (query_id : String) (model : ModelNew) : Except PyError String :=
  let enz_id := stripSeps query_id
  match model.enzyme_reaction.find? (fun er => er.enzyme_id == enz_id) with
  | some er => .ok er.reaction_id
  | none => .error .stopIteration

/-- The validity filter
`~df.parameter.isin(["kcat", "conc_enzyme"]) | df.enzyme.apply(is_valid_enzyme)`. -/
def keepRow (model : ModelNew) (t : PriorRow) : Bool :=
  !(t.parameter == "kcat" || t.parameter == "conc_enzyme")
    || isValidEnzyme t.enzyme model

/-- The reaction-id assignment
`df.loc[df.parameter.isin(["kcat", "ki"]), "reaction"] = … query_lookup …`:
on a kcat/ki row a NaN enzyme raises `AttributeError` inside `query_lookup`
(`float` has no `replace`), a failed lookup raises `StopIteration`, otherwise
the reaction cell is set; other rows are untouched. -/
def assignRow (model : ModelNew) (t : PriorRow) : Except PyError PriorRow :=
  if t.parameter == "kcat" || t.parameter == "ki" then
    match t.enzyme with
    | none => .error .attributeError
    | some e =>
      match queryLookup e model with
      | .error err => .error err
      | .ok rid => .ok { t with reaction := some rid }
  else .ok t

/-- `update_priors` from `src/update_maud/update_priors.py`: transform the
columns, apply the validity filter, assign reaction ids, then raise
`NotImplementedError` if any row's parameter is still `conc_phos`, and
finally select the target columns (already exactly the fields of
`PriorRow`). -/
def updatePriorsNew (rows : List PriorsRowOld) (model : ModelNew) :
    Except PyError (List PriorRow) :=
  match mapE (assignRow model) ((rows.map transformRow).filter (keepRow model)) with
  | .error err => .error err
  | .ok as =>
    if as.any (fun t => t.parameter == "conc_phos") then
      .error .notImplementedError
    else
      .ok as

/-- The legacy `query_lookup` in `src/update_priors.py` yields `enz_reac.id`,
but `EnzymeReaction` has no `id` field: a successful match raises
`AttributeError`; no match still raises `StopIteration`. -/
def queryLookupLegacy (query_id : String) (model : ModelNew) : Except PyError String :=
  let enz_id := stripSeps query_id
  match model.enzyme_reaction.find? (fun er => er.enzyme_id == enz_id) with
  | some _ => .error .attributeError
  | none => .error .stopIteration

/-! ## `src/update_maud/main.py`: `update_measurements` -/

/-- One row of the measurements table; `rest` stands for all columns other
than the three the function touches or tests. -/
structure MeasurementRow where
  measurement_type : String
  target_id : String
  experiment_id : String
  rest : List String
deriving DecidableEq, Repr

/-- `update_measurements`: strip separators from `experiment_id` everywhere,
then from `target_id` on the rows whose `measurement_type` is `"flux"`. -/
def updateMeasurements (rows : List MeasurementRow) : List MeasurementRow :=
  (rows.map (fun r => { r with experiment_id := stripSeps r.experiment_id })).map
    (fun r =>
      if r.measurement_type == "flux" then { r with target_id := stripSeps r.target_id }
      else r)

/-! ## Supporting lemmas -/

lemma stripSeps_no_sep (s : String) : containsSep (stripSeps s) = false := by
  have h : ∀ l : List Char,
      ((l.filter (fun c => c != '_')).any (fun c => c == '_')) = false := by
    intro l
    induction l with
    | nil => rfl
    | cons c cs ih =>
      by_cases hc : c = '_'
      · simp [List.filter_cons, hc]
      · simp [List.filter_cons, hc]
  simp [containsSep, stripSeps, h s.data]

lemma mkMetabolite_stripped (i : String) (n k : Option String) :
    mkMetabolite (stripSeps i) n k = .ok ⟨stripSeps i, n, k⟩ := by
  simp [mkMetabolite, stripSeps_no_sep]

lemma mkEnzyme_stripped (i : String) (n : Option String) (s : Int) (hs : 0 < s) :
    mkEnzyme (stripSeps i) n s = .ok ⟨stripSeps i, n, s⟩ := by
  simp [mkEnzyme, stripSeps_no_sep]
  omega

lemma mkReaction_stripped (i : String) (n : Option String) (mech : ReactionMechanism)
    (st : List (String × Rat)) (w c : Rat) :
    mkReaction (stripSeps i) n mech st w c = .ok ⟨stripSeps i, n, mech, st, w, c⟩ := by
  simp [mkReaction, stripSeps_no_sep, stoichDictNeIntZero]

@[simp] lemma foldE_nil (f : σ → α → Except PyError σ) (init : σ) :
    foldE f init [] = .ok init := rfl

lemma foldE_cons (f : σ → α → Except PyError σ) (init : σ) (a : α) (as : List α) :
    foldE f init (a :: as) =
      match f init a with
      | .error e => .error e
      | .ok s => foldE f s as := rfl

@[simp] lemma mapE_nil (f : α → Except PyError β) : mapE f [] = .ok [] := rfl

lemma mapE_cons (f : α → Except PyError β) (a : α) (as : List α) :
    mapE f (a :: as) =
      match f a with
      | .error e => .error e
      | .ok b =>
        match mapE f as with
        | .error e => .error e
        | .ok bs => .ok (b :: bs) := rfl

lemma mapE_ok_forward (f : α → Except PyError β) (l : List α) (out : List β)
    (h : mapE f l = .ok out) : ∀ x ∈ l, ∃ y ∈ out, f x = .ok y := by
  induction l generalizing out with
  | nil => intro x hx; cases hx
  | cons a as ih =>
    rw [mapE_cons] at h
    cases hfa : f a with
    | error e => rw [hfa] at h; cases h
    | ok b =>
      rw [hfa] at h
      cases hrec : mapE f as with
      | error e => rw [hrec] at h; cases h
      | ok bs =>
        rw [hrec] at h
        cases h
        intro x hx
        rcases List.mem_cons.mp hx with rfl | hx'
        · exact ⟨b, List.mem_cons_self _ _, hfa⟩
        · obtain ⟨y, hy, hfy⟩ := ih bs hrec x hx'
          exact ⟨y, List.mem_cons_of_mem _ hy, hfy⟩

lemma mapE_ok_backward (f : α → Except PyError β) (l : List α) (out : List β)
    (h : mapE f l = .ok out) : ∀ y ∈ out, ∃ x ∈ l, f x = .ok y := by
  induction l generalizing out with
  | nil => cases h; intro y hy; cases hy
  | cons a as ih =>
    rw [mapE_cons] at h
    cases hfa : f a with
    | error e => rw [hfa] at h; cases h
    | ok b =>
      rw [hfa] at h
      cases hrec : mapE f as with
      | error e => rw [hrec] at h; cases h
      | ok bs =>
        rw [hrec] at h
        cases h
        intro y hy
        rcases List.mem_cons.mp hy with rfl | hy'
        · exact ⟨a, List.mem_cons_self _ _, hfa⟩
        · obtain ⟨x, hx, hfx⟩ := ih bs hrec y hy'
          exact ⟨x, List.mem_cons_of_mem _ hx, hfx⟩

/-! Closed forms for the pieces of `update_model` that the claims mention:
the `Reaction` produced from one old reaction, and the
`CompetitiveInhibition` records produced from one modifier / enzyme /
reaction.  These are proof-layer summaries; the executable migration above is
the embedding of the source. -/

/-- The `md.Reaction` record `update_model` constructs from one old reaction. -/
def reactionOf (reac : ReactionPrev) : Reaction :=
  ⟨stripSeps reac.id, some reac.name, mechanismOf reac.mechanism,
    newStoich reac.stoichiometry, reac.water_stoichiometry, reac.transported_charge⟩

/-- Competitive-inhibition records contributed by one modifier. -/
def ciOfModifier (enz_id reac_id : String) (m : ModifierPrev) :
    List CompetitiveInhibition :=
  if m.modifier_type == "competitive_inhibitor" then
    [⟨enz_id, reac_id, micToMet m.mic_id, "c"⟩]
  else []

/-- Competitive-inhibition records contributed by one enzyme. -/
def ciOfEnzyme (reac_id : String) (enz : EnzymePrev) : List CompetitiveInhibition :=
  match enz.modifier with
  | none => []
  | some mods => mods.flatMap (ciOfModifier (stripSeps enz.id) reac_id)

/-- Competitive-inhibition records contributed by one reaction. -/
def ciOfReaction (reac : ReactionPrev) : List CompetitiveInhibition :=
  reac.enzyme.flatMap (ciOfEnzyme (stripSeps reac.id))

lemma stepModifier_reactions (e r : String) (acc : MigAcc) (m : ModifierPrev) :
    (stepModifier e r acc m).reactions = acc.reactions := by
  unfold stepModifier
  split <;> rfl

lemma stepModifier_ci (e r : String) (acc : MigAcc) (m : ModifierPrev) :
    (stepModifier e r acc m).comp_inhibitions =
      acc.comp_inhibitions ++ ciOfModifier e r m := by
  unfold stepModifier ciOfModifier
  split <;> simp

lemma foldl_stepModifier_spec (e r : String) (mods : List ModifierPrev) (acc : MigAcc) :
    (mods.foldl (stepModifier e r) acc).reactions = acc.reactions ∧
    (mods.foldl (stepModifier e r) acc).comp_inhibitions =
      acc.comp_inhibitions ++ mods.flatMap (ciOfModifier e r) := by
  induction mods generalizing acc with
  | nil => simp
  | cons m ms ih =>
    obtain ⟨h1, h2⟩ := ih (stepModifier e r acc m)
    refine ⟨?_, ?_⟩
    · rw [List.foldl_cons, h1, stepModifier_reactions]
    · rw [List.foldl_cons, h2, stepModifier_ci]
      simp [List.flatMap_cons]

lemma stepEnzyme_ok_spec (rid : String) (acc : MigAcc) (enz : EnzymePrev)
    (acc' : MigAcc) (h : stepEnzyme rid acc enz = .ok acc') :
    acc'.reactions = acc.reactions ∧
    acc'.comp_inhibitions = acc.comp_inhibitions ++ ciOfEnzyme rid enz := by
  unfold stepEnzyme at h
  cases hmk : mkEnzyme (stripSeps enz.id) (some enz.name) enz.subunits with
  | error e => rw [hmk] at h; cases h
  | ok e =>
    rw [hmk] at h
    cases hm : enz.modifier with
    | none =>
      rw [hm] at h
      cases h
      simp [ciOfEnzyme, hm]
    | some mods =>
      rw [hm] at h
      cases h
      obtain ⟨h1, h2⟩ := foldl_stepModifier_spec (stripSeps enz.id) rid mods _
      exact ⟨h1, by rw [h2]; simp [ciOfEnzyme, hm]⟩

lemma foldE_stepEnzyme_spec (rid : String) (l : List EnzymePrev) (acc acc' : MigAcc)
    (h : foldE (stepEnzyme rid) acc l = .ok acc') :
    acc'.reactions = acc.reactions ∧
    acc'.comp_inhibitions = acc.comp_inhibitions ++ l.flatMap (ciOfEnzyme rid) := by
  induction l generalizing acc with
  | nil => cases h; simp
  | cons enz rest ih =>
    rw [foldE_cons] at h
    cases hstep : stepEnzyme rid acc enz with
    | error e => rw [hstep] at h; cases h
    | ok acc₁ =>
      rw [hstep] at h
      obtain ⟨h1, h2⟩ := stepEnzyme_ok_spec rid acc enz acc₁ hstep
      obtain ⟨h3, h4⟩ := ih acc₁ h
      refine ⟨by rw [h3, h1], ?_⟩
      rw [h4, h2]
      simp [List.flatMap_cons]

lemma stepReaction_ok_spec (acc : MigAcc) (reac : ReactionPrev) (acc' : MigAcc)
    (h : stepReaction acc reac = .ok acc') :
    acc'.reactions = acc.reactions ++ [reactionOf reac] ∧
    acc'.comp_inhibitions = acc.comp_inhibitions ++ ciOfReaction reac := by
  unfold stepReaction at h
  rw [mkReaction_stripped] at h
  obtain ⟨h1, h2⟩ := foldE_stepEnzyme_spec (stripSeps reac.id) reac.enzyme _ acc' h
  exact ⟨by rw [h1]; rfl, by rw [h2]; rfl⟩

lemma foldE_stepReaction_spec (l : List ReactionPrev) (acc acc' : MigAcc)
    (h : foldE stepReaction acc l = .ok acc') :
    acc'.reactions = acc.reactions ++ l.map reactionOf ∧
    acc'.comp_inhibitions = acc.comp_inhibitions ++ l.flatMap ciOfReaction := by
  induction l generalizing acc with
  | nil => cases h; simp
  | cons reac rest ih =>
    rw [foldE_cons] at h
    cases hstep : stepReaction acc reac with
    | error e => rw [hstep] at h; cases h
    | ok acc₁ =>
      rw [hstep] at h
      obtain ⟨h1, h2⟩ := stepReaction_ok_spec acc reac acc₁ hstep
      obtain ⟨h3, h4⟩ := ih acc₁ h
      refine ⟨?_, ?_⟩
      · rw [h3, h1]; simp
      · rw [h4, h2]; simp [List.flatMap_cons]

/-- The `MetaboliteInCompartment` record emitted for one old entry. -/
def micOf (met : MetabolitePrev) : MetaboliteInCompartment :=
  ⟨stripSeps met.id, met.compartment, met.balanced⟩

/-- The `Metabolite` record emitted for one old entry. -/
def metOf (met : MetabolitePrev) : Metabolite :=
  ⟨stripSeps met.id, met.name, met.metabolite_inchi_key⟩

lemma stepMetabolite_ok_dup (acc : List Metabolite × List MetaboliteInCompartment)
    (met : MetabolitePrev)
    (hd : acc.1.any (fun mm => stripSeps met.id == mm.id) = true) :
    stepMetabolite acc met = .ok (acc.1, acc.2 ++ [micOf met]) := by
  simp [stepMetabolite, hd, micOf]

lemma stepMetabolite_ok_new (acc : List Metabolite × List MetaboliteInCompartment)
    (met : MetabolitePrev)
    (hd : acc.1.any (fun mm => stripSeps met.id == mm.id) = false) :
    stepMetabolite acc met = .ok (acc.1 ++ [metOf met], acc.2 ++ [micOf met]) := by
  simp [stepMetabolite, hd, mkMetabolite_stripped, micOf, metOf]

lemma foldE_stepMetabolite_snd (l : List MetabolitePrev)
    (acc acc' : List Metabolite × List MetaboliteInCompartment)
    (h : foldE stepMetabolite acc l = .ok acc') :
    acc'.2 = acc.2 ++ l.map micOf := by
  induction l generalizing acc with
  | nil => cases h; simp
  | cons met rest ih =>
    rw [foldE_cons] at h
    by_cases hd : acc.1.any (fun mm => stripSeps met.id == mm.id) = true
    · rw [stepMetabolite_ok_dup acc met hd] at h
      have := ih _ h
      rw [this]
      simp
    · rw [stepMetabolite_ok_new acc met (by simpa using hd)] at h
      have := ih _ h
      rw [this]
      simp

lemma foldE_stepMetabolite_count (l : List MetabolitePrev)
    (acc acc' : List Metabolite × List MetaboliteInCompartment)
    (h : foldE stepMetabolite acc l = .ok acc')
    (hk : ∀ cid : String, acc.1.countP (fun mm => mm.id == cid) =
      if acc.1.any (fun mm => mm.id == cid) then 1 else 0) :
    ∀ cid : String, acc'.1.countP (fun mm => mm.id == cid) =
      if (acc.1.any (fun mm => mm.id == cid)
          || l.any (fun met => stripSeps met.id == cid)) then 1 else 0 := by
  induction l generalizing acc with
  | nil =>
    cases h
    intro cid
    simpa using hk cid
  | cons met rest ih =>
    rw [foldE_cons] at h
    by_cases hd : acc.1.any (fun mm => stripSeps met.id == mm.id) = true
    · rw [stepMetabolite_ok_dup acc met hd] at h
      intro cid
      have hrec := ih _ h hk cid
      rw [hrec]
      obtain ⟨mm, hmm, hmmid⟩ := List.any_eq_true.mp hd
      have hmmid' : mm.id = stripSeps met.id := (beq_iff_eq.mp hmmid).symm
      by_cases hcid : stripSeps met.id = cid
      · have hacc : acc.1.any (fun mm => mm.id == cid) = true :=
          List.any_eq_true.mpr ⟨mm, hmm, beq_iff_eq.mpr (hmmid'.trans hcid)⟩
        simp [hacc, List.any_cons, hcid]
      · have hfalse : (stripSeps met.id == cid) = false := by
          simp [hcid]
        simp [List.any_cons, hfalse]
    · have hd' : acc.1.any (fun mm => stripSeps met.id == mm.id) = false := by
        simpa using hd
      rw [stepMetabolite_ok_new acc met hd'] at h
      intro cid
      have hknew : ∀ cid' : String,
          (acc.1 ++ [metOf met]).countP (fun mm => mm.id == cid') =
          if (acc.1 ++ [metOf met]).any (fun mm => mm.id == cid') then 1 else 0 := by
        intro cid'
        rw [List.countP_append, List.any_append, hk cid']
        by_cases hcid : stripSeps met.id = cid'
        · have hacc : acc.1.any (fun mm => mm.id == cid') = false := by
            rw [List.any_eq_false]
            intro mm hmm hbeq
            have heq : mm.id = cid' := beq_iff_eq.mp hbeq
            have : acc.1.any (fun mm => stripSeps met.id == mm.id) = true :=
              List.any_eq_true.mpr ⟨mm, hmm, beq_iff_eq.mpr (hcid.trans heq.symm)⟩
            rw [hd'] at this
            cases this
          simp [hacc, metOf, hcid]
        · simp [metOf, hcid]
      have hrec := ih _ h hknew cid
      rw [hrec]
      by_cases hcid : stripSeps met.id = cid <;>
        simp [List.any_append, List.any_cons, metOf, hcid, Bool.or_assoc]

lemma updateModel_ok_elim (old : ModelPrev) (m : ModelNew) (h : updateModel old = .ok m) :
    ∃ acc mets, foldE stepReaction ⟨[], [], [], [], []⟩ old.reaction = .ok acc ∧
      foldE stepMetabolite ([], []) old.metabolite = .ok mets ∧
      m = ⟨old.compartment, acc.reactions, acc.enzymes, acc.enzyme_reactions,
        mets.1, mets.2, acc.allosteries, acc.comp_inhibitions⟩ := by
  unfold updateModel at h
  cases h1 : foldE stepReaction ⟨[], [], [], [], []⟩ old.reaction with
  | error e => rw [h1] at h; cases h
  | ok acc =>
    rw [h1] at h
    cases h2 : foldE stepMetabolite ([], []) old.metabolite with
    | error e => rw [h2] at h; cases h
    | ok mets =>
      rw [h2] at h
      cases h
      exact ⟨acc, mets, rfl, rfl, rfl⟩

lemma forall₂_map_left (f : α → β) (P : β → α → Prop) (l : List α)
    (hP : ∀ x ∈ l, P (f x) x) : List.Forall₂ P (l.map f) l := by
  induction l with
  | nil => exact List.Forall₂.nil
  | cons x xs ih =>
    exact List.Forall₂.cons (hP x (List.mem_cons_self x xs))
      (ih (fun y hy => hP y (List.mem_cons_of_mem x hy)))

/-! ## Claim C1 -/

/-- C1: the claim says constructing a `Reaction` fails with a
`ValidationError` whenever a stoichiometry coefficient is zero.  The code's
validator body is `assert v != 0` on the whole dict, which always holds, so a
reaction whose only coefficient is `0` is accepted: evaluating the embedded
constructor at the failing input `{"ac": 0.0}` yields a successfully
constructed record whose every coefficient is zero. -/
theorem reaction_zero_coeff_accepted :
    mkReaction "r1" none ReactionMechanism.irreversibleMichaelisMenten
      [("ac", 0)] 0 0 =
      .ok ⟨"r1", none, ReactionMechanism.irreversibleMichaelisMenten,
        [("ac", 0)], 0, 0⟩ ∧
    ([("ac", (0 : Rat))].all (fun kv => kv.2 == 0)) = true := by
  decide

/-! ## Claim C2 -/

/-- A migrated model with one enzyme-reaction join. -/
def exC2model : ModelNew := ⟨[], [], [], [⟨"e1", "r1"⟩], [], [], [], []⟩

/-- A priors row whose parameter type is `conc_phos`. -/
def exC2row : PriorsRowOld :=
  ⟨"conc_phos", none, some "e_1", some "exp_1", none, none, none, none, none⟩

/-- C2: the claim says `update_priors` raises `NotImplementedError` whenever a
row's parameter type is `conc_phos`.  The code renames `conc_phos` to
`conc_pme` before testing `(df.parameter == "conc_phos").any()`, so the test
never fires: on a table with one `conc_phos` row the migration returns output
(with the renamed row) instead of raising. -/
theorem updatePriors_conc_phos_not_raised :
    updatePriorsNew [exC2row] exC2model =
      .ok [⟨"conc_pme", none, none, some "e1", none, some "exp1",
        none, none, none, none⟩] ∧
    updatePriorsNew [exC2row] exC2model ≠ .error PyError.notImplementedError := by
  decide

/-! ## Claim C3 -/

/-- Two old metabolite-in-compartment entries whose ids strip to the same
canonical id `"ac"`, in different compartments. -/
def exC3old : ModelPrev :=
  ⟨[], [], [⟨"a_c", "c", true, none, none⟩, ⟨"ac", "e", false, none, none⟩], none⟩

/-- The migrated model `update_model_toml.py` produces for `exC3old`. -/
def exC3new : ModelNew :=
  ⟨[], [], [], [], [⟨"ac", none, none⟩],
    [⟨"ac", "c", true⟩, ⟨"ac", "e", false⟩], [], []⟩

/-- C3 counterexample: the claim covers both `update_model` variants, but the
legacy `src/update_maud.py` loop has no deduplication: on two entries whose
ids both strip to `"ac"` it emits two `Metabolite` records with that id,
where the claim demands exactly one. -/
theorem legacy_metabolite_dedup_cx :
    Except.map (fun m => m.metabolite.countP (fun mm => mm.id == "ac"))
      (updateModelLegacy exC3old) = .ok 2 ∧ (2 : Nat) ≠ 1 := by
  decide

/-- C3 (amended to the `update_maud/update_model_toml.py` migration): for
every canonical (separator-stripped) metabolite id, exactly one `Metabolite`
record is emitted when some entry strips to it (none otherwise), and one
`MetaboliteInCompartment` record is emitted per old entry, carrying the
original compartment id and balanced flag. -/
theorem updateModel_metabolite_dedup (old : ModelPrev) (m : ModelNew)
    (h : updateModel old = .ok m) :
    (∀ cid : String, m.metabolite.countP (fun mm => mm.id == cid) =
      if old.metabolite.any (fun met => stripSeps met.id == cid) then 1 else 0) ∧
    List.Forall₂ (fun (mc : MetaboliteInCompartment) (met : MetabolitePrev) =>
      mc.metabolite_id = stripSeps met.id ∧ mc.compartment_id = met.compartment ∧
      mc.balanced = met.balanced) m.metabolite_in_compartment old.metabolite := by
  obtain ⟨acc, mets, _h1, h2, rfl⟩ := updateModel_ok_elim old m h
  constructor
  · intro cid
    have := foldE_stepMetabolite_count old.metabolite ([], []) mets h2
      (by intro cid'; simp) cid
    simpa using this
  · have hsnd := foldE_stepMetabolite_snd old.metabolite ([], []) mets h2
    have : mets.2 = old.metabolite.map micOf := by simpa using hsnd
    show List.Forall₂ _ mets.2 old.metabolite
    rw [this]
    exact forall₂_map_left micOf _ old.metabolite (fun met _ => ⟨rfl, rfl, rfl⟩)

/-- C3 witness: the amended dedup theorem applied to the concrete input
`exC3old` (hypothesis discharged by evaluation). -/
theorem updateModel_metabolite_dedup_witness :
    (List.countP (fun mm => mm.id == "ac") exC3new.metabolite =
      if exC3old.metabolite.any (fun met => stripSeps met.id == "ac") then 1 else 0) ∧
    List.Forall₂ (fun (mc : MetaboliteInCompartment) (met : MetabolitePrev) =>
      mc.metabolite_id = stripSeps met.id ∧ mc.compartment_id = met.compartment ∧
      mc.balanced = met.balanced) exC3new.metabolite_in_compartment exC3old.metabolite :=
  ⟨(updateModel_metabolite_dedup exC3old exC3new (by decide)).1 "ac",
   (updateModel_metabolite_dedup exC3old exC3new (by decide)).2⟩

/-! ## Claim C4 -/

/-- An old model with one reaction whose stoichiometry key `"a_b_c"` is
changed by the `UNDER_PAT` rewrite (to `"ab_c"`). -/
def exC4old : ModelPrev :=
  ⟨[], [⟨"r_1", "r", "irr", [("a_b_c", -1)], [], 0, 0⟩], [], none⟩

/-- The migrated model `update_model_toml.py` produces for `exC4old`. -/
def exC4new : ModelNew :=
  ⟨[], [⟨"r1", some "r", ReactionMechanism.irreversibleMichaelisMenten,
    [("ab_c", -1)], 0, 0⟩], [], [], [], [], [], []⟩

/-- C4 counterexample: the claim covers both `update_model` variants, but the
legacy `src/update_maud.py` passes the stoichiometry dict to `md.Reaction`
unchanged: the key `"a_b_c"` survives verbatim instead of being rewritten to
`"ab_c"` as the claim requires. -/
theorem legacy_stoich_keys_cx :
    Except.map (fun m => m.reaction.map (fun r => r.stoichiometry))
      (updateModelLegacy exC4old) = .ok [[("a_b_c", -1)]] ∧
    [("a_b_c", (-1 : Rat))] ≠
      pyDictOfList ([("a_b_c", (-1 : Rat))].map (fun kv => (underPatSub kv.1, kv.2))) := by
  decide

/-- C4 (amended to the `update_maud/update_model_toml.py` migration): each
migrated reaction has mechanism reversible Michaelis-Menten exactly when the
old mechanism string starts with `"reversible"` (else irreversible), id equal
to the old id with every separator removed, stoichiometry keys rewritten by
the `UNDER_PAT` rule (every separator removed except one preceding a trailing
single-letter compartment suffix), and water stoichiometry and transported
charge copied unchanged. -/
theorem updateModel_reaction_fields (old : ModelPrev) (m : ModelNew)
    (h : updateModel old = .ok m) :
    List.Forall₂ (fun (r : Reaction) (reac : ReactionPrev) =>
      (r.mechanism = ReactionMechanism.reversibleMichaelisMenten ↔
        pyStartsWith reac.mechanism "reversible" = true) ∧
      (pyStartsWith reac.mechanism "reversible" = false →
        r.mechanism = ReactionMechanism.irreversibleMichaelisMenten) ∧
      r.id = stripSeps reac.id ∧
      r.stoichiometry =
        pyDictOfList (reac.stoichiometry.map (fun kv => (underPatSub kv.1, kv.2))) ∧
      r.water_stoichiometry = reac.water_stoichiometry ∧
      r.transported_charge = reac.transported_charge)
      m.reaction old.reaction := by
  obtain ⟨acc, mets, h1, _h2, rfl⟩ := updateModel_ok_elim old m h
  obtain ⟨hre, _⟩ := foldE_stepReaction_spec old.reaction _ acc h1
  show List.Forall₂ _ acc.reactions old.reaction
  rw [hre]
  simp only [List.nil_append]
  refine forall₂_map_left reactionOf _ old.reaction (fun reac _ => ?_)
  cases hrev : pyStartsWith reac.mechanism "reversible" with
  | true =>
    refine ⟨by simp [reactionOf, mechanismOf, hrev], by simp [hrev], rfl, rfl, rfl, rfl⟩
  | false =>
    refine ⟨by simp [reactionOf, mechanismOf, hrev], ?_, rfl, rfl, rfl, rfl⟩
    intro _
    simp [reactionOf, mechanismOf, hrev]

/-! ## Claim C5 -/

/-- A competitive-inhibitor modifier with `mic_id = "x_c_c"`. -/
def exC5mod : ModifierPrev := ⟨"competitive_inhibitor", "x_c_c"⟩

/-- The enzyme carrying `exC5mod`. -/
def exC5enz : EnzymePrev := ⟨"e_1", "e", 2, some [exC5mod]⟩

/-- The reaction carrying `exC5enz`. -/
def exC5reac : ReactionPrev := ⟨"r_1", "r", "irr", [], [exC5enz], 0, 0⟩

/-- An old model with one competitive-inhibitor modifier. -/
def exC5old : ModelPrev := ⟨[], [exC5reac], [], none⟩

/-- The migrated model `update_model_toml.py` produces for `exC5old`. -/
def exC5new : ModelNew :=
  ⟨[], [⟨"r1", some "r", ReactionMechanism.irreversibleMichaelisMenten, [], 0, 0⟩],
    [⟨"e1", some "e", 2⟩], [⟨"e1", "r1"⟩], [], [], [],
    [⟨"e1", "r1", "xc", "c"⟩]⟩

/-- C5 counterexample: the claim covers both `update_model` variants, but the
legacy `src/update_maud.py` stores the raw `mic_id` as the competitive
inhibition's metabolite id: on `mic_id = "x_c_c"` it emits `"x_c_c"`, not the
suffix-stripped `"xc"` the claim requires. -/
theorem legacy_comp_inhibition_mic_cx :
    Except.map (fun m => m.competitive_inhibition.map (fun ci => ci.metabolite_id))
      (updateModelLegacy exC5old) = .ok ["x_c_c"] ∧
    "x_c_c" ≠ stripSeps (dropLast2 "x_c_c") := by
  decide

/-- C5 (amended to the `update_maud/update_model_toml.py` migration): every
modifier tagged `competitive_inhibitor` yields a `CompetitiveInhibition`
record whose metabolite id is the modifier's `mic_id` with the trailing
two-character compartment suffix removed and every remaining separator
stripped; in particular `"x_c_c"` yields `"xc"`. -/
theorem updateModel_comp_inhibition (old : ModelPrev) (m : ModelNew)
    (h : updateModel old = .ok m)
    (reac : ReactionPrev) (hr : reac ∈ old.reaction)
    (enz : EnzymePrev) (he : enz ∈ reac.enzyme)
    (mods : List ModifierPrev) (hm : enz.modifier = some mods)
    (mo : ModifierPrev) (hmo : mo ∈ mods)
    (ht : mo.modifier_type = "competitive_inhibitor") :
    (⟨stripSeps enz.id, stripSeps reac.id, stripSeps (dropLast2 mo.mic_id), "c"⟩ :
      CompetitiveInhibition) ∈ m.competitive_inhibition ∧
    stripSeps (dropLast2 "x_c_c") = "xc" := by
  obtain ⟨acc, mets, h1, _h2, rfl⟩ := updateModel_ok_elim old m h
  obtain ⟨_, hci⟩ := foldE_stepReaction_spec old.reaction _ acc h1
  refine ⟨?_, by decide⟩
  show _ ∈ acc.comp_inhibitions
  rw [hci]
  simp only [List.nil_append]
  refine List.mem_flatMap.mpr ⟨reac, hr, ?_⟩
  unfold ciOfReaction
  refine List.mem_flatMap.mpr ⟨enz, he, ?_⟩
  unfold ciOfEnzyme
  rw [hm]
  refine List.mem_flatMap.mpr ⟨mo, hmo, ?_⟩
  simp [ciOfModifier, ht, micToMet]

/-- C5 witness: the amended competitive-inhibition theorem applied to the
concrete modifier `mic_id = "x_c_c"` in `exC5old` (hypotheses discharged by
evaluation). -/
theorem updateModel_comp_inhibition_witness :
    (⟨stripSeps exC5enz.id, stripSeps exC5reac.id, stripSeps (dropLast2 exC5mod.mic_id),
      "c"⟩ : CompetitiveInhibition) ∈ exC5new.competitive_inhibition ∧
    stripSeps (dropLast2 "x_c_c") = "xc" :=
  updateModel_comp_inhibition exC5old exC5new (by decide) exC5reac (by decide)
    exC5enz (by decide) [exC5mod] rfl exC5mod (by decide) rfl

/-! ## Claim C8 -/

/-- An old model with three non-competitive modifiers: an allosteric
inhibitor, an allosteric activator, and an unrecognised tag. -/
def exC8old : ModelPrev :=
  ⟨[], [⟨"r_1", "r", "reversible_modular_rate_law", [],
    [⟨"e_1", "e", 1, some [⟨"allosteric_inhibitor", "y_c_c"⟩,
      ⟨"allosteric_activator", "z_c_c"⟩, ⟨"some_other_tag", "w_c_c"⟩]⟩], 0, 0⟩],
    [], none⟩

/-- C8: on every modifier not tagged `competitive_inhibitor`, the
`update_maud/update_model_toml.py` migration emits an `Allostery` record with
modification type inhibition exactly for the tag `allosteric_inhibitor`
(activation for any other tag), metabolite id derived by the same
suffix-and-separator stripping, and the fixed default compartment `"c"` —
but the legacy `src/update_maud.py` passes the keyword `compartment` instead
of the required field `compartment_id`, so it raises a `ValidationError`
instead of producing any record: the claim is right and the legacy call is a
slip. -/
theorem allostery_records_and_legacy_crash :
    updateModelLegacy exC8old = .error PyError.validationError ∧
    Except.map (fun m => m.allostery) (updateModel exC8old) =
      .ok [⟨"e1", "yc", "c", ModificationType.inhibition⟩,
        ⟨"e1", "zc", "c", ModificationType.activation⟩,
        ⟨"e1", "wc", "c", ModificationType.activation⟩] := by
  decide

/-! ## Claim C10 -/

/-- An old model carrying a drain entry. -/
def exC10old : ModelPrev :=
  ⟨[], [⟨"r_1", "r", "reversible_modular_rate_law", [("a_c", -1)],
    [⟨"e_1", "e", 1, none⟩], 0, 0⟩], [⟨"a_c", "c", true, none, none⟩], none⟩

/-- A drain entry. -/
def exC10drain : DrainPrev := ⟨"d_1", "d", [("a_c", 1)]⟩

/-- The migrated model `update_model_toml.py` produces for `exC10old`. -/
def exC10new : ModelNew :=
  ⟨[], [⟨"r1", some "r", ReactionMechanism.reversibleMichaelisMenten,
    [("a_c", -1)], 0, 0⟩], [⟨"e1", some "e", 1⟩], [⟨"e1", "r1"⟩],
    [⟨"ac", none, none⟩], [⟨"ac", "c", true⟩], [], []⟩

/-- C10: the migration never reads the parsed drain table — its output is the
same whatever the drain field holds — and no migrated reaction ever has the
drain mechanism. -/
theorem updateModel_ignores_drains (old : ModelPrev) (d : Option (List DrainPrev))
    (m : ModelNew) :
    updateModel { old with drain := d } = updateModel { old with drain := none } ∧
    (updateModel old = .ok m →
      m.reaction.all (fun r => r.mechanism != ReactionMechanism.drain) = true) := by
  constructor
  · rfl
  · intro h
    obtain ⟨acc, mets, h1, _h2, rfl⟩ := updateModel_ok_elim old m h
    obtain ⟨hre, _⟩ := foldE_stepReaction_spec old.reaction _ acc h1
    show acc.reactions.all _ = true
    rw [hre]
    simp only [List.nil_append, List.all_eq_true]
    intro r hr
    obtain ⟨reac, _, rfl⟩ := List.mem_map.mp hr
    unfold reactionOf mechanismOf
    split <;> simp

/-- C10 witness: the drain-independence theorem applied to the concrete model
`exC10old` with a concrete drain entry (hypothesis discharged by
evaluation). -/
theorem updateModel_ignores_drains_witness :
    updateModel { exC10old with drain := some [exC10drain] } =
      updateModel { exC10old with drain := none } ∧
    exC10new.reaction.all (fun r => r.mechanism != ReactionMechanism.drain) = true :=
  ⟨(updateModel_ignores_drains exC10old (some [exC10drain]) exC10new).1,
   (updateModel_ignores_drains exC10old (some [exC10drain]) exC10new).2 (by decide)⟩

/-- C4 witness: the amended reaction-fields theorem applied to the concrete
input `exC4old` (hypothesis discharged by evaluation). -/
theorem updateModel_reaction_fields_witness :
    List.Forall₂ (fun (r : Reaction) (reac : ReactionPrev) =>
      (r.mechanism = ReactionMechanism.reversibleMichaelisMenten ↔
        pyStartsWith reac.mechanism "reversible" = true) ∧
      (pyStartsWith reac.mechanism "reversible" = false →
        r.mechanism = ReactionMechanism.irreversibleMichaelisMenten) ∧
      r.id = stripSeps reac.id ∧
      r.stoichiometry =
        pyDictOfList (reac.stoichiometry.map (fun kv => (underPatSub kv.1, kv.2))) ∧
      r.water_stoichiometry = reac.water_stoichiometry ∧
      r.transported_charge = reac.transported_charge)
      exC4new.reaction exC4old.reaction :=
  updateModel_reaction_fields exC4old exC4new (by decide)

/-! ## Priors-migration lemmas (claims C6 and C7) -/

/-- A prior row with its `reaction` column blanked: two rows with equal
`eraseReaction` images agree on every column the reaction-id assignment does
not touch. -/
def eraseReaction (t : PriorRow) : PriorRow := { t with reaction := none }

lemma eraseReaction_fields {u t : PriorRow} (h : eraseReaction u = eraseReaction t) :
    u.parameter = t.parameter ∧ u.enzyme = t.enzyme := by
  have h1 : (eraseReaction u).parameter = (eraseReaction t).parameter := by rw [h]
  have h2 : (eraseReaction u).enzyme = (eraseReaction t).enzyme := by rw [h]
  exact ⟨h1, h2⟩

lemma assignRow_core (model : ModelNew) (t t' : PriorRow)
    (h : assignRow model t = .ok t') : eraseReaction t' = eraseReaction t := by
  unfold assignRow at h
  by_cases hp : (t.parameter == "kcat" || t.parameter == "ki") = true
  · rw [if_pos hp] at h
    cases he : t.enzyme with
    | none => rw [he] at h; dsimp only at h; cases h
    | some e =>
      rw [he] at h
      dsimp only at h
      cases hq : queryLookup e model with
      | error err => rw [hq] at h; dsimp only at h; cases h
      | ok rid =>
        rw [hq] at h
        dsimp only at h
        cases h
        simp [eraseReaction, he]
  · rw [if_neg hp] at h
    cases h
    rfl

lemma assignRow_kcat_ki (model : ModelNew) (t t' : PriorRow)
    (h : assignRow model t = .ok t') (hp : t.parameter = "kcat" ∨ t.parameter = "ki") :
    ∃ e rid, t.enzyme = some e ∧ queryLookup e model = .ok rid ∧
      t' = { t with reaction := some rid } := by
  unfold assignRow at h
  have hp' : (t.parameter == "kcat" || t.parameter == "ki") = true := by
    rcases hp with hp | hp <;> simp [hp]
  rw [if_pos hp'] at h
  cases he : t.enzyme with
  | none => rw [he] at h; dsimp only at h; cases h
  | some e =>
    rw [he] at h
    dsimp only at h
    cases hq : queryLookup e model with
    | error err => rw [hq] at h; dsimp only at h; cases h
    | ok rid =>
      rw [hq] at h
      dsimp only at h
      cases h
      exact ⟨e, rid, rfl, hq, rfl⟩

lemma updatePriorsNew_ok_elim (rows : List PriorsRowOld) (model : ModelNew)
    (out : List PriorRow) (h : updatePriorsNew rows model = .ok out) :
    mapE (assignRow model) ((rows.map transformRow).filter (keepRow model)) = .ok out := by
  unfold updatePriorsNew at h
  cases h1 : mapE (assignRow model) ((rows.map transformRow).filter (keepRow model)) with
  | error e => rw [h1] at h; cases h
  | ok as =>
    rw [h1] at h
    dsimp only at h
    by_cases ha : (as.any (fun t => t.parameter == "conc_phos")) = true
    · rw [if_pos ha] at h; cases h
    · rw [if_neg ha] at h
      cases h
      rfl

/-! ## Claim C6 -/

/-- A migrated model with the single join `e1 → r1`. -/
def exC6model : ModelNew := ⟨[], [], [], [⟨"e1", "r1"⟩], [], [], [], []⟩

/-- A `kcat` row whose enzyme id `e_2` matches no join record. -/
def exC6kcat : PriorsRowOld :=
  ⟨"kcat", none, some "e_2", some "exp1", none, none, none, none, none⟩

/-- A `ki` row whose enzyme id `e_2` matches no join record. -/
def exC6ki : PriorsRowOld :=
  ⟨"ki", some "m_c", some "e_2", some "exp1", none, none, none, none, none⟩

/-- A `kcat` row whose enzyme id `e_1` resolves to the join `e1 → r1`. -/
def exC6okRow : PriorsRowOld :=
  ⟨"kcat", none, some "e_1", some "exp1", none, none, none, none, none⟩

/-- The output row the migration produces for `exC6okRow`. -/
def exC6outRow : PriorRow :=
  ⟨"kcat", none, none, some "e1", some "r1", some "exp1", none, none, none, none⟩

/-- C6 counterexample: the claim says the migration raises a
`StopIteration`-class error whenever a kcat/ki row's enzyme id matches no
join record; but a `kcat` row with an unknown enzyme is removed by the
validity filter before the lookup runs, so the migration returns an empty
table instead of raising. -/
theorem kcat_missing_enzyme_dropped_cx :
    updatePriorsNew [exC6kcat] exC6model = .ok [] ∧
    exC6model.enzyme_reaction.all (fun er => er.enzyme_id != stripSeps "e_2") = true := by
  decide

/-- C6 (amended): every surviving output row of parameter type `kcat` or `ki`
carries the reaction id found by `query_lookup` on its enzyme id (first
matching join record); a `ki` row — which the validity filter does not cover
— whose enzyme id matches no join record makes the migration raise
`StopIteration`; a `kcat` row with no match is dropped by the filter before
the lookup instead. -/
theorem updatePriors_kcat_ki_lookup (rows : List PriorsRowOld) (model : ModelNew)
    (out : List PriorRow) (h : updatePriorsNew rows model = .ok out) :
    (∀ t ∈ out, (t.parameter = "kcat" ∨ t.parameter = "ki") →
      t.enzyme ≠ none ∧
      t.reaction = t.enzyme.bind (fun e => (queryLookup e model).toOption) ∧
      t.reaction ≠ none) ∧
    updatePriorsNew [exC6ki] exC6model = .error PyError.stopIteration := by
  refine ⟨?_, by decide⟩
  intro t ht hp
  have hmap := updatePriorsNew_ok_elim rows model out h
  obtain ⟨s, _hs, hass⟩ := mapE_ok_backward _ _ _ hmap t ht
  have hcore := assignRow_core model s t hass
  obtain ⟨hpar, henz⟩ := eraseReaction_fields hcore
  have hps : s.parameter = "kcat" ∨ s.parameter = "ki" := by
    rw [← hpar]; exact hp
  obtain ⟨e, rid, he, hq, rfl⟩ := assignRow_kcat_ki model s t hass hps
  have henz' : s.enzyme = some e := he
  refine ⟨?_, ?_, ?_⟩
  · show s.enzyme ≠ none
    rw [henz']
    exact fun hh => by cases hh
  · show some rid = s.enzyme.bind (fun e => (queryLookup e model).toOption)
    rw [henz']
    simp [hq, Except.toOption]
  · exact fun hh => by cases hh

/-- C6 witness: the amended lookup theorem applied to a concrete run where a
`kcat` row resolves through the join `e1 → r1` (hypotheses discharged by
evaluation). -/
theorem updatePriors_kcat_ki_lookup_witness :
    exC6outRow.enzyme ≠ none ∧
    exC6outRow.reaction = exC6outRow.enzyme.bind (fun e => (queryLookup e exC6model).toOption) ∧
    exC6outRow.reaction ≠ none :=
  (updatePriors_kcat_ki_lookup [exC6okRow] exC6model [exC6outRow] (by decide)).1
    exC6outRow (by decide) (Or.inl rfl)

/-! ## Claim C7 -/

/-- A migrated model whose only join record has an empty reaction id. -/
def exC7model : ModelNew := ⟨[], [], [], [⟨"e1", ""⟩], [], [], [], []⟩

/-- A `kcat` row whose stripped enzyme id `e1` matches that join record. -/
def exC7row : PriorsRowOld :=
  ⟨"kcat", none, some "e_1", some "exp1", none, none, none, none, none⟩

/-- A migrated model with the single join `e1 → r1` (for the witness run). -/
def exC7wModel : ModelNew := ⟨[], [], [], [⟨"e1", "r1"⟩], [], [], [], []⟩

/-- C7 counterexample: the claim says a `kcat` row appears in the output iff
its stripped enzyme id matches the `enzyme_id` of some join record.  The
filter's generator tests the truthiness of `reaction_id`, so a matching join
record whose reaction id is the empty string still drops the row: here the
enzyme id matches, yet the output is empty. -/
theorem kcat_empty_reaction_id_cx :
    updatePriorsNew [exC7row] exC7model = .ok [] ∧
    exC7model.enzyme_reaction.any (fun er => er.enzyme_id == stripSeps "e_1") = true := by
  decide

/-- C7 (amended): a row whose migrated parameter is `kcat` or `conc_enzyme`
appears in the output iff its stripped enzyme id matches the `enzyme_id` of
some join record with a non-empty (truthy) `reaction_id` — this is
`is_valid_enzyme` — and rows of every other parameter type are never dropped
by this filter. -/
theorem updatePriors_validity_filter (rows : List PriorsRowOld) (model : ModelNew)
    (out : List PriorRow) (h : updatePriorsNew rows model = .ok out) :
    (∀ r ∈ rows, (r.parameter_type = "kcat" ∨ r.parameter_type = "conc_enzyme") →
      out.any (fun u => decide (eraseReaction u = eraseReaction (transformRow r))) =
        isValidEnzyme (transformRow r).enzyme model) ∧
    (∀ r ∈ rows, (transformRow r).parameter ≠ "kcat" →
      (transformRow r).parameter ≠ "conc_enzyme" →
      out.any (fun u => decide (eraseReaction u = eraseReaction (transformRow r))) = true) := by
  have hmap := updatePriorsNew_ok_elim rows model out h
  have appears : ∀ r ∈ rows, keepRow model (transformRow r) = true →
      out.any (fun u => decide (eraseReaction u = eraseReaction (transformRow r))) = true := by
    intro r hr hkeep
    have hmem : transformRow r ∈ (rows.map transformRow).filter (keepRow model) :=
      List.mem_filter.mpr ⟨List.mem_map.mpr ⟨r, hr, rfl⟩, hkeep⟩
    obtain ⟨u, hu, hass⟩ := mapE_ok_forward _ _ _ hmap _ hmem
    exact List.any_eq_true.mpr ⟨u, hu, decide_eq_true (assignRow_core model _ u hass)⟩
  constructor
  · intro r hr hp
    have hpt : (transformRow r).parameter = "kcat" ∨
        (transformRow r).parameter = "conc_enzyme" := by
      rcases hp with hp | hp
      · left
        show pyReplace (pyReplace r.parameter_type "diss_t" "dissociation_constant")
          "conc_phos" "conc_pme" = "kcat"
        rw [hp]
        decide
      · right
        show pyReplace (pyReplace r.parameter_type "diss_t" "dissociation_constant")
          "conc_phos" "conc_pme" = "conc_enzyme"
        rw [hp]
        decide
    cases hv : isValidEnzyme (transformRow r).enzyme model with
    | true =>
      refine appears r hr ?_
      simp [keepRow, hv]
    | false =>
      cases hany : out.any (fun u => decide (eraseReaction u = eraseReaction (transformRow r))) with
      | false => rfl
      | true =>
        exfalso
        obtain ⟨u, hu, hud⟩ := List.any_eq_true.mp hany
        have hucore : eraseReaction u = eraseReaction (transformRow r) := of_decide_eq_true hud
        obtain ⟨s, hsmem, hass⟩ := mapE_ok_backward _ _ _ hmap u hu
        have hscore : eraseReaction s = eraseReaction (transformRow r) :=
          (assignRow_core model s u hass).symm.trans hucore
        obtain ⟨hspar, hsenz⟩ := eraseReaction_fields hscore
        obtain ⟨_, hskeep⟩ := List.mem_filter.mp hsmem
        have hsp : (s.parameter == "kcat" || s.parameter == "conc_enzyme") = true := by
          rcases hpt with hpt | hpt <;> simp [hspar, hpt]
        have : isValidEnzyme s.enzyme model = true := by
          unfold keepRow at hskeep
          rw [hsp] at hskeep
          simpa using hskeep
        rw [hsenz] at this
        rw [hv] at this
        cases this
  · intro r hr hne1 hne2
    refine appears r hr ?_
    have h1 : ((transformRow r).parameter == "kcat") = false := by
      simp [hne1]
    have h2 : ((transformRow r).parameter == "conc_enzyme") = false := by
      simp [hne2]
    simp [keepRow, h1, h2]

/-- C7 witness: the amended filter theorem applied to a concrete run where a
valid `kcat` row survives the filter (hypotheses discharged by evaluation). -/
theorem updatePriors_validity_filter_witness :
    ([⟨"kcat", none, none, some "e1", some "r1", some "exp1",
        none, none, none, none⟩] : List PriorRow).any
      (fun u => decide (eraseReaction u = eraseReaction (transformRow exC7row))) =
      isValidEnzyme (transformRow exC7row).enzyme exC7wModel :=
  (updatePriors_validity_filter [exC7row] exC7wModel
    [⟨"kcat", none, none, some "e1", some "r1", some "exp1",
      none, none, none, none⟩] (by decide)).1 exC7row (by decide) (Or.inl rfl)

/-! ## Claim C9 -/

/-- C9: in the measurements migration every output row, pairwise with its
input row, has `experiment_id` separator-stripped, `target_id`
separator-stripped exactly when the row's `measurement_type` is `"flux"`, and
every other cell unchanged. -/
theorem updateMeasurements_cells (rows : List MeasurementRow) :
    List.Forall₂ (fun (o r : MeasurementRow) =>
      o.experiment_id = stripSeps r.experiment_id ∧
      o.target_id =
        (if r.measurement_type = "flux" then stripSeps r.target_id else r.target_id) ∧
      o.measurement_type = r.measurement_type ∧
      o.rest = r.rest)
      (updateMeasurements rows) rows := by
  unfold updateMeasurements
  rw [List.map_map]
  refine forall₂_map_left _ _ rows (fun r _ => ?_)
  by_cases hmt : r.measurement_type = "flux"
  · simp [Function.comp, hmt]
  · simp [Function.comp, hmt]

end Maud
